import Mathlib

/-
Shallow embedding of the sign-easy-app field-placement and PDF-compositing
core, together with theorems settling the spec claims against it.

Source files embedded here:
  - DraggableField.tsx            (FieldType)
  - DocumentFieldOverlay.tsx      (PlacedField, handleDrop fallback path)
  - DocumentPreview.tsx           (handleDragEnd drop path, field add/remove)
  - UseFieldTracking.tsx          (document-keyed field store)
  - PdfGenerator (unnamed/part_001, second revision):
        generateSignedPDF, generatePDFWithPositionedFields,
        generateSignaturePagePDF
  - DocumentUpload (unnamed/part_003): handleDownloadDocument

JavaScript numbers are modelled as rationals, JS strings as Lean Strings,
the pdf-lib document as a list of pages carrying their drawing operations,
and the asynchronous image-embedding steps by explicit success parameters.
-/

namespace SignEasy

/-- String constants appearing in the source (collected here so that every
literal is written once). -/
def sSignature : String := "signature"

def sName : String := "name"

def sEmail : String := "email"

def sDate : String := "date"

def sPlacedDash : String := "placed-"

def sDash : String := "-"

def sAppPdf : String := "application/pdf"

def sTitle : String := "Document Signature"

def sSignerInfo : String := "Signer Information:"

def sNameColon : String := "Name:"

def sEmailColon : String := "Email:"

def sDateColon : String := "Date:"

def sNameLbl : String := "Name: "

def sEmailLbl : String := "Email: "

def sDateLbl : String := "Date: "

def sSigLbl : String := "Signature:"

def sSigFallback : String := "Signature: [Digital Signature Applied]"

def sDigitalSig : String := "[Digital Signature]"

def sSignedOn : String := "Document signed on: "

def sSignedSuffix : String := "_signed.pdf"

def sGenError : String := "Failed to generate signed PDF"

def sMsgAddFields : String := "Please add and fill some fields before downloading."

def sMsgFillFields : String := "Please fill in all fields before downloading."

def sMsgGenFailed : String := "Error generating signed document. Please try again."

/-- Field kinds, from DraggableField.tsx:
type FieldType = signature, name, email, date. -/
inductive FieldType where
  | signature
  | name
  | email
  | date
deriving DecidableEq, Repr

/-- The literal string a FieldType value denotes in the source. -/
def fieldTypeStr : FieldType → String
  | .signature => sSignature
  | .name => sName
  | .email => sEmail
  | .date => sDate

/-- Decimal rendering of a natural number as a character list, the way a JS
template literal renders an integer (most significant digit first, and 0
renders as the single digit 0). -/
def natRepr (n : Nat) : List Char :=
  if n = 0 then ['0'] else ((Nat.digits 10 n).map (fun d => Char.ofNat (48 + d))).reverse

/-- Decimal rendering as a String. -/
def natStr (n : Nat) : String := String.mk (natRepr n)

/-- Id generation shared by both drop-commit paths:
id := placed-fieldType-Date.now() (template literal in
DocumentFieldOverlay.tsx line 80 and DocumentPreview.tsx line 326).
The timestamp argument stands for the value of Date.now() at the commit. -/
def mkFieldId (k : FieldType) (t : Nat) : String :=
  sPlacedDash ++ fieldTypeStr k ++ sDash ++ natStr t

/-- PlacedField, from DocumentFieldOverlay.tsx lines 11-19. The interface
declares id, type, x, y, page, width, height; the download handler in
DocumentUpload additionally reads an optional value property, modelled here
as an Option that object literals without the property leave at none. -/
structure PlacedField where
  id : String
  type : FieldType
  x : ℚ
  y : ℚ
  page : Int
  width : ℚ
  height : ℚ
  value : Option String := none
deriving DecidableEq, Repr

/-- Default width, inline in both drop paths:
fieldType === signature ? 120 : 100. -/
def defaultWidth (k : FieldType) : ℚ := if k = .signature then 120 else 100

/-- Default height, inline in both drop paths:
fieldType === signature ? 40 : 30. -/
def defaultHeight (k : FieldType) : ℚ := if k = .signature then 40 else 30

/-- handleDrop in DocumentFieldOverlay.tsx (lines 59-90), the fallback path
for native drag events. Arguments x and y are the surface-relative pointer
coordinates event.clientX - rect.left and event.clientY - rect.top; the
committed record offsets them by (-50, -15) with no clamping. -/
def overlayHandleDrop (fieldType : FieldType) (x y : ℚ) (currentPage : Int)
    (now : Nat) : PlacedField :=
  { id := mkFieldId fieldType now
    type := fieldType
    x := x - 50
    y := y - 15
    page := currentPage
    width := defaultWidth fieldType
    height := defaultHeight fieldType
    value := none }

/-- handleDragEnd in DocumentPreview.tsx (lines 312-338), the DndKit path.
The drop position is reconstructed as delta + 100 on each axis, offset by
(-50, -15) and clamped to be nonnegative with Math.max. -/
def previewHandleDragEnd (fieldType : FieldType) (deltaX deltaY : ℚ)
    (currentPage : Int) (now : Nat) : PlacedField :=
  { id := mkFieldId fieldType now
    type := fieldType
    x := max 0 (deltaX + 100 - 50)
    y := max 0 (deltaY + 100 - 15)
    page := currentPage
    width := defaultWidth fieldType
    height := defaultHeight fieldType
    value := none }

/-- handleFieldPlaced in DocumentPreview.tsx (lines 290-294): the new field
is appended to the current list. -/
def handleFieldPlaced (placedFields : List PlacedField) (field : PlacedField) :
    List PlacedField :=
  placedFields ++ [field]

/-- handleFieldRemoved in DocumentPreview.tsx (lines 296-300): the list is
filtered by id. -/
def handleFieldRemoved (placedFields : List PlacedField) (fieldId : String) :
    List PlacedField :=
  placedFields.filter (fun field => field.id != fieldId)

/-- Lists of placed fields reachable from the empty list through the
placement-preview flow: the two drop-commit paths (each appending through
handleFieldPlaced) and removal. No other operation in the flow touches the
list. -/
inductive PlacementReachable : List PlacedField → Prop where
  | nil : PlacementReachable []
  | dropOverlay (l : List PlacedField) (ft : FieldType) (x y : ℚ) (p : Int)
      (t : Nat) (h : PlacementReachable l) :
      PlacementReachable (handleFieldPlaced l (overlayHandleDrop ft x y p t))
  | dropPreview (l : List PlacedField) (ft : FieldType) (dx dy : ℚ) (p : Int)
      (t : Nat) (h : PlacementReachable l) :
      PlacementReachable (handleFieldPlaced l (previewHandleDragEnd ft dx dy p t))
  | removed (l : List PlacedField) (fid : String) (h : PlacementReachable l) :
      PlacementReachable (handleFieldRemoved l fid)

/-- Drawing operations issued against a pdf-lib page: page.drawText with a
string, position and font size, and page.drawImage with position and size.
Font choice and color do not affect any claim and are omitted. -/
inductive DrawOp where
  | text (s : String) (x y : ℚ) (size : ℚ)
  | image (x y w h : ℚ)
deriving DecidableEq, Repr

/-- A pdf-lib page: its native size as returned by page.getSize(), plus the
list of drawing operations performed on it, in order. Pages loaded from the
source document start with their pre-existing content abstracted away and
ops recording only the operations the embedded code performs. -/
structure Page where
  width : ℚ
  height : ℚ
  ops : List DrawOp
deriving DecidableEq, Repr

/-- An assembled pdf-lib document: its ordered list of pages. -/
structure OutputPDF where
  pages : List Page
deriving DecidableEq, Repr

/-- A File value as the embedded code observes it: the identity triple read
by getDocumentKey, the MIME type, and the result of attempting to load the
bytes as a PDF (some pages when PDFDocument.load succeeds, none when it
throws). -/
structure JSFile where
  name : String
  type : String
  size : Nat
  lastModified : Nat
  pdfPages : Option (List Page)
deriving DecidableEq, Repr

/-- getDocumentKey in UseFieldTracking.tsx (lines 14-16):
the template literal name-size-lastModified. -/
def getDocumentKey (f : JSFile) : String :=
  f.name ++ sDash ++ natStr f.size ++ sDash ++ natStr f.lastModified

/-- The field-tracking store: a JS Map from document key to field list,
modelled as its entry list in insertion order. -/
abbrev Store := List (String × List PlacedField)

/-- Map.prototype.set: replace the value at an existing key in place,
otherwise append the new entry at the end. -/
def storeSet : Store → String → List PlacedField → Store
  | [], k, v => [(k, v)]
  | e :: m, k, v => if e.1 = k then (k, v) :: m else e :: storeSet m k v

/-- Map.prototype.get, as an Option. -/
def storeGet : Store → String → Option (List PlacedField)
  | [], _ => none
  | e :: m, k => if e.1 = k then some e.2 else storeGet m k

/-- Map.prototype.delete. -/
def storeDel : Store → String → Store
  | [], _ => []
  | e :: m, k => if e.1 = k then m else e :: storeDel m k

/-- Well-formedness of a store: keys are pairwise distinct. Every store a JS
Map can reach satisfies this; it is preserved by set and delete below. -/
def StoreWF (m : Store) : Prop := (m.map Prod.fst).Nodup

/-- updateDocumentFields in UseFieldTracking.tsx (lines 18-28):
newMap.set(key, fields). -/
def updateDocumentFields (m : Store) (f : JSFile) (fields : List PlacedField) :
    Store :=
  storeSet m (getDocumentKey f) fields

/-- getDocumentFields in UseFieldTracking.tsx (lines 30-36):
documentsWithFields.get(key) with a default of the empty list. -/
def getDocumentFields (m : Store) (f : JSFile) : List PlacedField :=
  (storeGet m (getDocumentKey f)).getD []

/-- removeDocumentFields in UseFieldTracking.tsx (lines 38-48):
newMap.delete(key). -/
def removeDocumentFields (m : Store) (f : JSFile) : Store :=
  storeDel m (getDocumentKey f)

/-- SignatureData, from PdfGenerator (unnamed/part_001 lines 187-192). -/
structure SignatureData where
  name : String
  email : String
  date : String
  signature : String
deriving DecidableEq, Repr

/-- The single drawing operation the positioned-field compositor performs
for one field on a page of the given size
(generatePDFWithPositionedFields, lines 282-337):
pdfX = (field.x / 600) * pageWidth,
pdfY = pageHeight - (field.y / 800) * pageHeight - 20,
then a per-kind drawText or drawImage. hasSigImage states whether the
signature image was embedded (signatureData.signature was nonempty and the
convert-and-embed step succeeded; on failure signatureImage stays null). -/
def fieldDrawOp (s : SignatureData) (hasSigImage : Bool) (pageWidth pageHeight : ℚ)
    (field : PlacedField) : DrawOp :=
  let pdfX := field.x / 600 * pageWidth
  let pdfY := pageHeight - field.y / 800 * pageHeight - 20
  match field.type with
  | .signature =>
    if hasSigImage then
      DrawOp.image pdfX (pdfY - 30) (min (field.width * (3 / 2)) 120)
        (min (field.height * (3 / 2)) 40)
    else DrawOp.text sDigitalSig pdfX pdfY 10
  | .name => DrawOp.text s.name pdfX pdfY 12
  | .email => DrawOp.text s.email pdfX pdfY 10
  | .date => DrawOp.text s.date pdfX pdfY 10

/-- The position at which a drawing operation places its content. -/
def opPos : DrawOp → ℚ × ℚ
  | .text _ x y _ => (x, y)
  | .image x y _ _ => (x, y)

/-- Page-by-page application of positioned fields, with n the 1-based page
number of the head page. Page number n receives, appended in field-list
order, the operations of the fields whose page equals n; a page number with
no fields is left untouched and a field whose page matches no page draws
nowhere. This is the per-page effect of the source's group-by-page Map and
its forEach over the groups (generatePDFWithPositionedFields lines 265-340):
each group touches a distinct page, the in-group order is field-list order,
and groups whose pageIndex falls outside 0..pages.length-1 are skipped. -/
def applyFieldsFrom (s : SignatureData) (hasSigImage : Bool)
    (fields : List PlacedField) : Int → List Page → List Page
  | _, [] => []
  | n, pg :: rest =>
    { pg with
        ops := pg.ops ++ (fields.filter (fun f => decide (f.page = n))).map
          (fieldDrawOp s hasSigImage pg.width pg.height) }
      :: applyFieldsFrom s hasSigImage fields (n + 1) rest

/-- generatePDFWithPositionedFields (lines 241-344), given the already
loaded pages of the source document: draw every grouped field onto its
page and return the document, whose page list keeps its length. -/
def applyPositionedFields (pages : List Page) (s : SignatureData)
    (hasSigImage : Bool) (fields : List PlacedField) : List Page :=
  applyFieldsFrom s hasSigImage fields 1 pages

/-- The drawing operations of the synthesized signature summary page
(generateSignaturePagePDF lines 346-446), in draw order, with yStart = 650
and lineHeight = 30. sigEmbedOk states whether converting and embedding the
signature image succeeds; nowStr stands for new Date().toLocaleString(). -/
def summaryPageOps (s : SignatureData) (sigEmbedOk : Bool) (nowStr : String) :
    List DrawOp :=
  [DrawOp.text sTitle 50 720 24,
   DrawOp.text sSignerInfo 50 650 16,
   DrawOp.text (sNameLbl ++ s.name) 50 (650 - 30) 12,
   DrawOp.text (sEmailLbl ++ s.email) 50 (650 - 30 * 2) 12,
   DrawOp.text (sDateLbl ++ s.date) 50 (650 - 30 * 3) 12]
  ++ (if s.signature = "" then []
      else if sigEmbedOk then
        [DrawOp.text sSigLbl 50 (650 - 30 * 5) 12,
         DrawOp.image 50 (650 - 30 * 8) 200 80]
      else [DrawOp.text sSigFallback 50 (650 - 30 * 5) 12])
  ++ [DrawOp.text (sSignedOn ++ nowStr) 50 50 10]

/-- The synthesized summary page: signaturePdf.addPage([612, 792]) with the
summary drawing operations. -/
def summaryPage (s : SignatureData) (sigEmbedOk : Bool) (nowStr : String) :
    Page :=
  { width := 612, height := 792, ops := summaryPageOps s sigEmbedOk nowStr }

/-- generateSignaturePagePDF (lines 346-471): build the summary page; when
the original file is a PDF, try to load it and prepend the summary page
(insertPage(0, ...)); when loading or merging throws, or the file is not a
PDF, return the summary page alone. -/
def generateSignaturePagePDF (f : JSFile) (s : SignatureData)
    (sigEmbedOk : Bool) (nowStr : String) : OutputPDF :=
  let sp := summaryPage s sigEmbedOk nowStr
  if f.type = sAppPdf then
    match f.pdfPages with
    | some ps => { pages := sp :: ps }
    | none => { pages := [sp] }
  else { pages := [sp] }

/-- generateSignedPDF (lines 222-239): when the original file is a PDF and
at least one field is positioned, run the positioned-field compositor over
the loaded pages (a load failure there escapes to the catch block, which
rethrows the generic failure); otherwise fall back to the summary-page
generator. The signature image is available to the compositor when the
signature value is nonempty and embedding succeeds. -/
def generateSignedPDF (f : JSFile) (s : SignatureData)
    (fieldPositions : List PlacedField) (sigEmbedOk : Bool) (nowStr : String) :
    Except String OutputPDF :=
  if f.type = sAppPdf ∧ 0 < fieldPositions.length then
    match f.pdfPages with
    | some ps =>
      Except.ok
        { pages := applyPositionedFields ps s
            (decide (s.signature ≠ "") && sigEmbedOk) fieldPositions }
    | none => Except.error sGenError
  else Except.ok (generateSignaturePagePDF f s sigEmbedOk nowStr)

/-- JS trim of a string: strip leading and trailing whitespace. -/
def jsTrim (s : String) : String :=
  String.mk (((s.data.dropWhile Char.isWhitespace).reverse.dropWhile
    Char.isWhitespace).reverse)

/-- The emptiness test of the download handler (unnamed/part_003 line 101):
!field.value || field.value.trim() === "". A missing value and an empty or
all-whitespace string both count as empty (the empty string is falsy). -/
def isEmptyValue (field : PlacedField) : Bool :=
  match field.value with
  | none => true
  | some v => jsTrim v = ""

/-- The value lookup fields.find(f => f.type === t)?.value || "" used to
build the SignatureData (lines 110-113). -/
def findValue (fields : List PlacedField) (t : FieldType) : String :=
  ((fields.find? (fun f => f.type = t)).bind PlacedField.value).getD ""

/-- The SignatureData the download handler assembles (lines 109-114). -/
def mkSignatureData (fields : List PlacedField) : SignatureData :=
  { name := findValue fields .name
    email := findValue fields .email
    date := findValue fields .date
    signature := findValue fields .signature }

/-- The segment of a string before its first dot: file.name.split(".")[0]
(line 118). -/
def firstDotSegment (s : String) : String :=
  String.mk (s.data.takeWhile (fun c => c ≠ '.'))

/-- Outcome of the download handler: an input-validation abort (alert before
any generation), a generated blob offered for download under a filename, or
the generic failure alert from the catch block. -/
inductive DownloadResult where
  | aborted (msg : String)
  | downloaded (blob : OutputPDF) (filename : String)
  | failed (msg : String)
deriving DecidableEq, Repr

/-- handleDownloadDocument (unnamed/part_003 lines 92-128). The handler
reads the field store and never writes it; the returned store is the input
store. sigEmbedOk and nowStr thread the generator's effect parameters. -/
def handleDownloadDocument (store : Store) (f : JSFile) (sigEmbedOk : Bool)
    (nowStr : String) : Store × DownloadResult :=
  let fields := getDocumentFields store f
  if fields.length = 0 then (store, DownloadResult.aborted sMsgAddFields)
  else if 0 < (fields.filter isEmptyValue).length then
    (store, DownloadResult.aborted sMsgFillFields)
  else
    match generateSignedPDF f (mkSignatureData fields) fields sigEmbedOk nowStr with
    | Except.ok blob =>
      (store, DownloadResult.downloaded blob (firstDotSegment f.name ++ sSignedSuffix))
    | Except.error _ => (store, DownloadResult.failed sMsgGenFailed)

/-- Further string constants used to instantiate theorems on concrete
inputs. -/
def sNow : String := "1/1/2026, 12:00:00 PM"

def sDocPdf : String := "doc.pdf"

def sNotesTxt : String := "notes.txt"

def sTextPlain : String := "text/plain"

def sAlice : String := "Alice"

def sNotesSignedPdf : String := "notes_signed.pdf"

def sNotesSignedTxt : String := "notes_signed.txt"

/-- Sample page used to instantiate theorems: a letter-size page with no
recorded operations. -/
def samplePage : Page := { width := 612, height := 792, ops := [] }

/-- Sample placed field used to instantiate theorems: a name field at
preview coordinates (100, 100) on page 1 with the default geometry. -/
def sampleNameField : PlacedField :=
  { id := sName, type := FieldType.name, x := 100, y := 100, page := 1,
    width := 100, height := 30, value := none }

/-- Sample placed field with a filled value. -/
def sampleFilledField : PlacedField :=
  { sampleNameField with value := some sAlice }

/-- Sample uploaded file: a loadable single-page PDF. -/
def sampleLoadablePdf : JSFile :=
  { name := sDocPdf, type := sAppPdf, size := 4, lastModified := 7,
    pdfPages := some [samplePage] }

/-- Sample uploaded file: a plain-text document. -/
def sampleTxtFile : JSFile :=
  { name := sNotesTxt, type := sTextPlain, size := 9, lastModified := 3,
    pdfPages := none }

/-- Key-and-separator part of a generated field id, as a character list. -/
def kindTag (k : FieldType) : List Char :=
  (sPlacedDash ++ fieldTypeStr k ++ sDash).data

/-- The character of a field id at index 7, just after the placed- mark. -/
def kindChar : FieldType → Char
  | .signature => 's'
  | .name => 'n'
  | .email => 'e'
  | .date => 'd'

theorem mkFieldId_data (k : FieldType) (t : Nat) :
    (mkFieldId k t).data = kindTag k ++ natRepr t := by
  cases k <;> rfl

theorem mkFieldId_seventh (k : FieldType) (t : Nat) :
    ((mkFieldId k t).data)[7]? = some (kindChar k) := by
  cases k <;> rfl

theorem mapDigitChar_inj : ∀ (l₁ l₂ : List Nat), (∀ d ∈ l₁, d < 10) →
    (∀ d ∈ l₂, d < 10) →
    l₁.map (fun d => Char.ofNat (48 + d)) = l₂.map (fun d => Char.ofNat (48 + d)) →
    l₁ = l₂ := by
  intro l₁
  induction l₁ with
  | nil => intro l₂ _ _ h; cases l₂ <;> simp_all
  | cons d l ih =>
    intro l₂ h₁ h₂ h
    cases l₂ with
    | nil => simp_all
    | cons e l' =>
      simp only [List.map_cons, List.cons.injEq] at h
      have key : ∀ a < 10, ∀ b < 10, Char.ofNat (48 + a) = Char.ofNat (48 + b) → a = b := by
        decide
      have hd : d = e :=
        key d (h₁ d (List.mem_cons_self d l)) e (h₂ e (List.mem_cons_self e l')) h.1
      subst hd
      have := ih l' (fun x hx => h₁ x (List.mem_cons_of_mem d hx))
        (fun x hx => h₂ x (List.mem_cons_of_mem d hx)) h.2
      simp [this]

theorem natRepr_inj {n m : Nat} (h : natRepr n = natRepr m) : n = m := by
  unfold natRepr at h
  by_cases hn : n = 0 <;> by_cases hm : m = 0
  · simp [hn, hm]
  · exfalso
    rw [if_pos hn, if_neg hm] at h
    have h' : (Nat.digits 10 m).map (fun d => Char.ofNat (48 + d)) = ['0'] := by
      have := congrArg List.reverse h
      simpa using this.symm
    rcases hdig : Nat.digits 10 m with _ | ⟨d, rest⟩
    · rw [hdig] at h'; simp at h'
    · rw [hdig] at h'
      simp only [List.map_cons, List.cons.injEq] at h'
      have hd10 : d < 10 := Nat.digits_lt_base (by norm_num) (hdig ▸ List.mem_cons_self d rest)
      have hd0 : d = 0 := by
        have : ∀ a < 10, Char.ofNat (48 + a) = '0' → a = 0 := by decide
        exact this d hd10 h'.1
      have hrest : rest = [] := by
        have := h'.2
        cases rest <;> simp_all
      have hm0 : m = 0 := by
        have hof := Nat.ofDigits_digits 10 m
        rw [hdig, hrest, hd0] at hof
        simpa using hof.symm
      exact hm hm0
  · exfalso
    rw [if_neg hn, if_pos hm] at h
    have h' : (Nat.digits 10 n).map (fun d => Char.ofNat (48 + d)) = ['0'] := by
      have := congrArg List.reverse h
      simpa using this
    rcases hdig : Nat.digits 10 n with _ | ⟨d, rest⟩
    · rw [hdig] at h'; simp at h'
    · rw [hdig] at h'
      simp only [List.map_cons, List.cons.injEq] at h'
      have hd10 : d < 10 := Nat.digits_lt_base (by norm_num) (hdig ▸ List.mem_cons_self d rest)
      have hd0 : d = 0 := by
        have : ∀ a < 10, Char.ofNat (48 + a) = '0' → a = 0 := by decide
        exact this d hd10 h'.1
      have hrest : rest = [] := by
        have := h'.2
        cases rest <;> simp_all
      have hn0 : n = 0 := by
        have hof := Nat.ofDigits_digits 10 n
        rw [hdig, hrest, hd0] at hof
        simpa using hof.symm
      exact hn hn0
  · rw [if_neg hn, if_neg hm] at h
    have h' := congrArg List.reverse h
    simp only [List.reverse_reverse] at h'
    have hdig := mapDigitChar_inj _ _
      (fun d hd => Nat.digits_lt_base (by norm_num) hd)
      (fun d hd => Nat.digits_lt_base (by norm_num) hd) h'
    exact Nat.digits_inj_iff.mp hdig

theorem mkFieldId_inj {k k' : FieldType} {t t' : Nat}
    (h : mkFieldId k t = mkFieldId k' t') : k = k' ∧ t = t' := by
  have hk : k = k' := by
    have h7 : some (kindChar k) = some (kindChar k') := by
      rw [← mkFieldId_seventh k t, ← mkFieldId_seventh k' t', h]
    cases k <;> cases k' <;> simp_all [kindChar]
  subst hk
  refine ⟨rfl, ?_⟩
  have hd : kindTag k ++ natRepr t = kindTag k ++ natRepr t' := by
    rw [← mkFieldId_data, ← mkFieldId_data, h]
  exact natRepr_inj (List.append_cancel_left hd)

theorem storeGet_set_self (m : Store) (k : String) (v : List PlacedField) :
    storeGet (storeSet m k v) k = some v := by
  induction m with
  | nil => simp [storeSet, storeGet]
  | cons e m ih =>
    by_cases he : e.1 = k
    · simp [storeSet, storeGet, he]
    · simp [storeSet, storeGet, he, ih]

theorem storeGet_eq_none (m : Store) (k : String)
    (h : k ∉ m.map Prod.fst) : storeGet m k = none := by
  induction m with
  | nil => rfl
  | cons e m ih =>
    simp only [List.map_cons, List.mem_cons] at h
    push_neg at h
    have he : ¬e.1 = k := fun hek => h.1 hek.symm
    simp [storeGet, he, ih h.2]

theorem storeGet_del_self (m : Store) (k : String) (h : StoreWF m) :
    storeGet (storeDel m k) k = none := by
  induction m with
  | nil => rfl
  | cons e m ih =>
    unfold StoreWF at h
    simp only [List.map_cons, List.nodup_cons] at h
    by_cases he : e.1 = k
    · simp only [storeDel, if_pos he]
      exact storeGet_eq_none m k (he ▸ h.1)
    · simp [storeDel, storeGet, he, ih h.2]

theorem applyFieldsFrom_length (s : SignatureData) (b : Bool)
    (fields : List PlacedField) : ∀ (n : Int) (pages : List Page),
    (applyFieldsFrom s b fields n pages).length = pages.length := by
  intro n pages
  induction pages generalizing n with
  | nil => rfl
  | cons pg rest ih => simp [applyFieldsFrom, ih]

theorem applyFieldsFrom_getElem? (s : SignatureData) (b : Bool)
    (fields : List PlacedField) : ∀ (pages : List Page) (n : Int) (i : Nat),
    (applyFieldsFrom s b fields n pages)[i]? = (pages[i]?).map (fun pg =>
      { pg with
          ops := pg.ops ++ (fields.filter (fun f => decide (f.page = n + i))).map
            (fieldDrawOp s b pg.width pg.height) }) := by
  intro pages
  induction pages with
  | nil => intro n i; simp [applyFieldsFrom]
  | cons pg rest ih =>
    intro n i
    cases i with
    | zero => simp [applyFieldsFrom]
    | succ i =>
      have hcast : n + 1 + (i : Int) = n + ((i + 1 : Nat) : Int) := by push_cast; ring
      simp only [applyFieldsFrom, List.getElem?_cons_succ]
      rw [ih (n + 1) i, hcast]

/-- Claim C1: for every placed field the positioned-field compositor
computes the draw position outputX = (field.x / 600) * pageWidth and
outputY = pageHeight - (field.y / 800) * pageHeight - verticalAdjust with
verticalAdjust = 20, a signature field with an embedded image being drawn a
further 30 units lower; in particular a name field placed at preview
coordinates (100, 100) against a 612 by 792 output page is drawn at
(102, 693 - 20) = (102, 673). -/
theorem c1_draw_position :
    (∀ (s : SignatureData) (b : Bool) (pw ph : ℚ) (f : PlacedField),
      opPos (fieldDrawOp s b pw ph f) =
        (f.x / 600 * pw,
          ph - f.y / 800 * ph - 20 -
            (if f.type = FieldType.signature ∧ b = true then 30 else 0)))
  ∧ (∀ (s : SignatureData) (b : Bool) (f : PlacedField),
      f.type = FieldType.name → f.x = 100 → f.y = 100 →
      opPos (fieldDrawOp s b 612 792 f) = (102, 693 - 20)) := by
  constructor
  · intro s b pw ph f
    obtain ⟨i, ty, x, y, pg, w, ht, v⟩ := f
    cases ty <;> cases b <;> simp [fieldDrawOp, opPos]
  · intro s b f htype hx hy
    obtain ⟨i, ty, x, y, pg, w, ht, v⟩ := f
    simp only at htype hx hy
    subst htype hx hy
    cases b <;> simp [fieldDrawOp, opPos] <;> norm_num

theorem c1_draw_position_witness :
    opPos (fieldDrawOp (mkSignatureData []) true 612 792
      { id := sName, type := FieldType.name, x := 100, y := 100, page := 1,
        width := 100, height := 30, value := none }) = (102, 693 - 20) :=
  c1_draw_position.2 (mkSignatureData []) true
    { id := sName, type := FieldType.name, x := 100, y := 100, page := 1,
      width := 100, height := 30, value := none } rfl rfl rfl

/-- Claim C2 as stated is false: the native-drop fallback path
(handleDrop in DocumentFieldOverlay.tsx) applies no clamp, so a name-field
drop with surface-relative pointer position (10, 10) — within half a field
width and height of the drop surface's origin — commits x = -40 < 0. -/
theorem c2_clamp_counterexample :
    (overlayHandleDrop FieldType.name 10 10 1 0).x = -40 ∧
    ¬(0 ≤ (overlayHandleDrop FieldType.name 10 10 1 0).x ∧
      0 ≤ (overlayHandleDrop FieldType.name 10 10 1 0).y) := by
  constructor
  · norm_num [overlayHandleDrop]
  · intro hcon
    have := hcon.1
    norm_num [overlayHandleDrop] at this

/-- Claim C2 amended: fields committed through the DndKit drag-end path are
clamped to x ≥ 0 and y ≥ 0 for every raw pointer delta, while the native
drag-event fallback path commits the unclamped offsets
(pointerX - 50, pointerY - 15), which go negative near the surface origin. -/
theorem c2_clamp_amended :
    (∀ (ft : FieldType) (dx dy : ℚ) (p : Int) (t : Nat),
      0 ≤ (previewHandleDragEnd ft dx dy p t).x ∧
      0 ≤ (previewHandleDragEnd ft dx dy p t).y)
  ∧ (∀ (ft : FieldType) (x y : ℚ) (p : Int) (t : Nat),
      (overlayHandleDrop ft x y p t).x = x - 50 ∧
      (overlayHandleDrop ft x y p t).y = y - 15) := by
  exact ⟨fun ft dx dy p t => ⟨le_max_left _ _, le_max_left _ _⟩,
    fun ft x y p t => ⟨rfl, rfl⟩⟩

/-- Claim C3 as stated is false for signature fields: both drop paths use
the fixed centering offset (-50, -15) for every field kind, so a signature
drop at surface-relative pointer position (200, 200) commits x = 150 and
not 200 - 120 / 2 = 140. -/
theorem c3_offset_counterexample :
    (overlayHandleDrop FieldType.signature 200 200 1 0).x = 150 ∧
    200 - defaultWidth FieldType.signature / 2 = 140 ∧
    (overlayHandleDrop FieldType.signature 200 200 1 0).x ≠
      200 - defaultWidth FieldType.signature / 2 := by
  refine ⟨?_, ?_, ?_⟩ <;> norm_num [overlayHandleDrop, defaultWidth]

/-- Claim C3 amended: on drop commit the committed coordinates equal the
surface-relative pointer position plus the fixed centering offset
(-50, -15) on every path and for every field kind (pre-clamp on the
drag-end path, whose pointer position is reconstructed as delta + 100);
this offset equals (-width/2, -height/2) of the kind's default geometry
exactly for the non-signature kinds (100 by 30), not for signature
(120 by 40). -/
theorem c3_offset_amended :
    (∀ (ft : FieldType) (x y : ℚ) (p : Int) (t : Nat),
      (overlayHandleDrop ft x y p t).x = x - 50 ∧
      (overlayHandleDrop ft x y p t).y = y - 15)
  ∧ (∀ (ft : FieldType) (dx dy : ℚ) (p : Int) (t : Nat),
      (previewHandleDragEnd ft dx dy p t).x = max 0 (dx + 100 - 50) ∧
      (previewHandleDragEnd ft dx dy p t).y = max 0 (dy + 100 - 15))
  ∧ (∀ ft : FieldType, ft ≠ FieldType.signature →
      defaultWidth ft / 2 = 50 ∧ defaultHeight ft / 2 = 15) := by
  refine ⟨fun ft x y p t => ⟨rfl, rfl⟩, fun ft dx dy p t => ⟨rfl, rfl⟩, ?_⟩
  intro ft hft
  cases ft <;> simp_all [defaultWidth, defaultHeight] <;> norm_num

theorem c3_offset_amended_witness :
    defaultWidth FieldType.name / 2 = 50 ∧ defaultHeight FieldType.name / 2 = 15 :=
  c3_offset_amended.2.2 FieldType.name (by decide)

/-- Claim C4: the compositor groups fields by page number and draws group
by group; the output document keeps exactly the input page count (no page
is added and no error is raised — the compositor is total), every field
whose page number is below 1 or exceeds the page count is silently skipped
(dropping all such fields leaves the output unchanged), and every in-range
field is still drawn on its page. -/
theorem c4_group_and_skip :
    (∀ (pages : List Page) (s : SignatureData) (b : Bool)
      (fields : List PlacedField),
      (applyPositionedFields pages s b fields).length = pages.length)
  ∧ (∀ (pages : List Page) (s : SignatureData) (b : Bool)
      (fields : List PlacedField),
      applyPositionedFields pages s b fields =
        applyPositionedFields pages s b
          (fields.filter (fun f =>
            decide (1 ≤ f.page) && decide (f.page ≤ (pages.length : Int)))))
  ∧ (∀ (pages : List Page) (s : SignatureData) (b : Bool)
      (fields : List PlacedField) (f : PlacedField),
      f ∈ fields → 1 ≤ f.page → f.page ≤ (pages.length : Int) →
      ∃ pg pg', pages[(f.page - 1).toNat]? = some pg ∧
        (applyPositionedFields pages s b fields)[(f.page - 1).toNat]? = some pg' ∧
        fieldDrawOp s b pg.width pg.height f ∈ pg'.ops) := by
  refine ⟨fun pages s b fields => applyFieldsFrom_length s b fields 1 pages, ?_, ?_⟩
  · intro pages s b fields
    apply List.ext_getElem?
    intro i
    unfold applyPositionedFields
    rw [applyFieldsFrom_getElem?, applyFieldsFrom_getElem?]
    by_cases hi : i < pages.length
    · rw [List.getElem?_eq_getElem hi]
      simp only [Option.map_some']
      have hfilter :
          fields.filter (fun f => decide (f.page = 1 + (i : Int))) =
          (fields.filter (fun f =>
            decide (1 ≤ f.page) && decide (f.page ≤ (pages.length : Int)))).filter
              (fun f => decide (f.page = 1 + (i : Int))) := by
        rw [List.filter_filter]
        apply List.filter_congr
        intro x _
        by_cases hq : x.page = 1 + (i : Int)
        · have h1 : (1 : Int) ≤ x.page := by omega
          have h2 : x.page ≤ (pages.length : Int) := by
            have : (i : Int) < (pages.length : Int) := by exact_mod_cast hi
            omega
          simp [hq, h1, h2]
          omega
        · simp [hq]
      rw [← hfilter]
    · have hnone : pages[i]? = none := List.getElem?_eq_none (not_lt.mp hi)
      rw [hnone]
      simp
  · intro pages s b fields f hf h1 h2
    have hicast : (((f.page - 1).toNat : Nat) : Int) = f.page - 1 :=
      Int.toNat_of_nonneg (by omega)
    have hi : (f.page - 1).toNat < pages.length := by
      have : (((f.page - 1).toNat : Nat) : Int) < (pages.length : Int) := by omega
      exact_mod_cast this
    refine ⟨pages[(f.page - 1).toNat],
      { pages[(f.page - 1).toNat] with
          ops := pages[(f.page - 1).toNat].ops ++
            (fields.filter (fun g =>
              decide (g.page = 1 + (((f.page - 1).toNat : Nat) : Int)))).map
              (fieldDrawOp s b pages[(f.page - 1).toNat].width
                pages[(f.page - 1).toNat].height) },
      List.getElem?_eq_getElem hi, ?_, ?_⟩
    · unfold applyPositionedFields
      rw [applyFieldsFrom_getElem?, List.getElem?_eq_getElem hi, Option.map_some']
    · apply List.mem_append_right
      apply List.mem_map_of_mem
      apply List.mem_filter.mpr
      refine ⟨hf, ?_⟩
      simp only [decide_eq_true_eq]
      omega

theorem c4_group_and_skip_witness :
    fieldDrawOp (mkSignatureData []) false samplePage.width samplePage.height
      sampleNameField ∈
      (((applyPositionedFields [samplePage] (mkSignatureData []) false
        [sampleNameField])[0]?).map Page.ops).getD [] := by
  obtain ⟨pg, pg', h₁, h₂, h₃⟩ := c4_group_and_skip.2.2 [samplePage]
    (mkSignatureData []) false [sampleNameField] sampleNameField
    (List.mem_singleton.mpr rfl) (by norm_num [sampleNameField])
    (by norm_num [sampleNameField])
  have h0 : ((sampleNameField.page - 1).toNat : Nat) = 0 := rfl
  rw [h0] at h₁ h₂
  rw [h₂]
  simp only [Option.map_some', Option.getD_some]
  have hpg : pg = samplePage := by
    have := h₁
    simp at this
    exact this.symm
  rw [hpg] at h₃
  exact h₃

/-- Claim C5 as stated is false: two distinct drop commits of the same
field kind within the same millisecond receive identical ids, because the
id is just the placed- prefix, the kind and the timestamp. Here two
name-field drops at different pointer positions in the same millisecond
produce different placed fields whose ids are equal. -/
theorem c5_id_counterexample :
    overlayHandleDrop FieldType.name 200 200 1 1700000000000 ≠
      overlayHandleDrop FieldType.name 300 300 1 1700000000000 ∧
    (overlayHandleDrop FieldType.name 200 200 1 1700000000000).id =
      (overlayHandleDrop FieldType.name 300 300 1 1700000000000).id := by
  constructor
  · intro h
    have hx := congrArg PlacedField.x h
    norm_num [overlayHandleDrop] at hx
  · rfl

/-- Claim C5 amended: two placement commits receive distinct generated ids
exactly when their field kinds differ or their Date.now() millisecond
timestamps differ; two commits of the same kind in the same millisecond
collide. -/
theorem c5_id_amended (k k' : FieldType) (t t' : Nat) :
    mkFieldId k t = mkFieldId k' t' ↔ k = k' ∧ t = t' := by
  constructor
  · exact mkFieldId_inj
  · rintro ⟨rfl, rfl⟩
    rfl

/-- Claim C6 as stated is false end to end: finalizing a document with zero
placed fields does not produce the fallback summary-page output, because
the download handler aborts with a blocking message before the generator
runs; no blob and no filename are produced. -/
theorem c6_zero_fields_counterexample :
    (handleDownloadDocument [] sampleLoadablePdf true sNow).2 =
      DownloadResult.aborted sMsgAddFields ∧
    DownloadResult.aborted sMsgAddFields ≠
      DownloadResult.downloaded
        (generateSignaturePagePDF sampleLoadablePdf (mkSignatureData []) true sNow)
        (firstDotSegment sampleLoadablePdf.name ++ sSignedSuffix) := by
  exact ⟨rfl, by simp⟩

/-- Claim C6 amended: invoking the PDF generator with zero positioned
fields (or a source that cannot host in-place edits) produces the fallback
summary-page output, whose drawn text contains the literal strings Name:,
Email: and Date: as prefixes of the signer-summary lines; the summary page
is prepended to the original document when it is a loadable PDF and
returned alone when loading fails or the source is not a PDF. End to end,
finalizing with zero placed fields is blocked by the download handler
before any output is produced. -/
theorem c6_fallback_amended :
    (∀ (f : JSFile) (s : SignatureData) (b : Bool) (nowStr : String),
      generateSignedPDF f s [] b nowStr =
        Except.ok (generateSignaturePagePDF f s b nowStr))
  ∧ (∀ (s : SignatureData) (b : Bool) (nowStr : String),
      (DrawOp.text (sNameLbl ++ s.name) 50 (650 - 30) 12 ∈
          (summaryPage s b nowStr).ops ∧
        (sNameLbl ++ s.name).data = sNameColon.data ++ ' ' :: s.name.data) ∧
      (DrawOp.text (sEmailLbl ++ s.email) 50 (650 - 30 * 2) 12 ∈
          (summaryPage s b nowStr).ops ∧
        (sEmailLbl ++ s.email).data = sEmailColon.data ++ ' ' :: s.email.data) ∧
      (DrawOp.text (sDateLbl ++ s.date) 50 (650 - 30 * 3) 12 ∈
          (summaryPage s b nowStr).ops ∧
        (sDateLbl ++ s.date).data = sDateColon.data ++ ' ' :: s.date.data))
  ∧ (∀ (f : JSFile) (s : SignatureData) (b : Bool) (nowStr : String)
      (ps : List Page), f.type = sAppPdf → f.pdfPages = some ps →
      (generateSignaturePagePDF f s b nowStr).pages =
        summaryPage s b nowStr :: ps)
  ∧ (∀ (f : JSFile) (s : SignatureData) (b : Bool) (nowStr : String),
      f.type ≠ sAppPdf ∨ f.pdfPages = none →
      (generateSignaturePagePDF f s b nowStr).pages = [summaryPage s b nowStr])
  ∧ (∀ (store : Store) (f : JSFile) (b : Bool) (nowStr : String),
      getDocumentFields store f = [] →
      (handleDownloadDocument store f b nowStr).2 =
        DownloadResult.aborted sMsgAddFields) := by
  refine ⟨?_, ?_, ?_, ?_, ?_⟩
  · intro f s b nowStr
    simp [generateSignedPDF]
  · intro s b nowStr
    have hname : sNameLbl.data = sNameColon.data ++ [' '] := rfl
    have hemail : sEmailLbl.data = sEmailColon.data ++ [' '] := rfl
    have hdate : sDateLbl.data = sDateColon.data ++ [' '] := rfl
    refine ⟨⟨?_, ?_⟩, ⟨?_, ?_⟩, ⟨?_, ?_⟩⟩
    · simp [summaryPage, summaryPageOps]
    · rw [String.data_append, hname, List.append_assoc]
      rfl
    · simp [summaryPage, summaryPageOps]
    · rw [String.data_append, hemail, List.append_assoc]
      rfl
    · simp [summaryPage, summaryPageOps]
    · rw [String.data_append, hdate, List.append_assoc]
      rfl
  · intro f s b nowStr ps htype hpages
    simp [generateSignaturePagePDF, htype, hpages]
  · intro f s b nowStr h
    rcases h with h | h
    · simp [generateSignaturePagePDF, h]
    · by_cases htype : f.type = sAppPdf <;>
        simp [generateSignaturePagePDF, htype, h]
  · intro store f b nowStr h
    simp [handleDownloadDocument, h]

theorem c6_fallback_amended_witness :
    (generateSignaturePagePDF sampleLoadablePdf (mkSignatureData []) true
        sNow).pages =
      summaryPage (mkSignatureData []) true sNow :: [samplePage] ∧
    (generateSignaturePagePDF sampleTxtFile (mkSignatureData []) true
        sNow).pages = [summaryPage (mkSignatureData []) true sNow] ∧
    (handleDownloadDocument [] sampleLoadablePdf true sNow).2 =
      DownloadResult.aborted sMsgAddFields := by
  refine ⟨?_, ?_, ?_⟩
  · exact c6_fallback_amended.2.2.1 sampleLoadablePdf (mkSignatureData []) true
      sNow [samplePage] rfl rfl
  · exact c6_fallback_amended.2.2.2.1 sampleTxtFile (mkSignatureData []) true
      sNow (Or.inl (by decide))
  · exact c6_fallback_amended.2.2.2.2 [] sampleLoadablePdf true sNow rfl

/-- Claim C7: when the field list for the document is empty, or some placed
field's value is missing or empty after trimming, the download handler
aborts with the corresponding blocking alert before any output is
generated — the result is an abort, no blob or filename is produced, and
the field store is returned unchanged (the handler never writes it). -/
theorem c7_validation :
    (∀ (store : Store) (f : JSFile) (b : Bool) (nowStr : String),
      getDocumentFields store f = [] →
      handleDownloadDocument store f b nowStr =
        (store, DownloadResult.aborted sMsgAddFields))
  ∧ (∀ (store : Store) (f : JSFile) (b : Bool) (nowStr : String)
      (fld : PlacedField), fld ∈ getDocumentFields store f →
      isEmptyValue fld = true →
      handleDownloadDocument store f b nowStr =
        (store, DownloadResult.aborted sMsgFillFields))
  ∧ (∀ (store : Store) (f : JSFile) (b : Bool) (nowStr : String),
      (handleDownloadDocument store f b nowStr).1 = store) := by
  refine ⟨?_, ?_, ?_⟩
  · intro store f b nowStr h
    simp [handleDownloadDocument, h]
  · intro store f b nowStr fld hmem hempty
    have h0 : (getDocumentFields store f).length ≠ 0 := by
      intro hlen
      rw [List.length_eq_zero] at hlen
      rw [hlen] at hmem
      simp at hmem
    have h1 : 0 < ((getDocumentFields store f).filter isEmptyValue).length :=
      List.length_pos_of_mem (List.mem_filter.mpr ⟨hmem, hempty⟩)
    simp [handleDownloadDocument, h0, h1]
  · intro store f b nowStr
    unfold handleDownloadDocument
    by_cases h0 : (getDocumentFields store f).length = 0
    · simp [h0]
    · by_cases h1 : 0 < ((getDocumentFields store f).filter isEmptyValue).length
      · simp [h0, h1]
      · cases hgen : generateSignedPDF f (mkSignatureData (getDocumentFields store f))
          (getDocumentFields store f) b nowStr <;> simp [h0, h1, hgen]

theorem c7_validation_witness :
    handleDownloadDocument (updateDocumentFields [] sampleLoadablePdf
        [sampleNameField]) sampleLoadablePdf true sNow =
      (updateDocumentFields [] sampleLoadablePdf [sampleNameField],
        DownloadResult.aborted sMsgFillFields) ∧
    (handleDownloadDocument [] sampleLoadablePdf true sNow).2 =
      DownloadResult.aborted sMsgAddFields := by
  constructor
  · have hfields : getDocumentFields (updateDocumentFields [] sampleLoadablePdf
        [sampleNameField]) sampleLoadablePdf = [sampleNameField] := by
      unfold getDocumentFields updateDocumentFields
      rw [storeGet_set_self]
      rfl
    exact c7_validation.2.1 (updateDocumentFields [] sampleLoadablePdf
      [sampleNameField]) sampleLoadablePdf true sNow sampleNameField
      (by rw [hfields]; exact List.mem_singleton.mpr rfl) rfl
  · exact congrArg Prod.snd (c7_validation.1 [] sampleLoadablePdf true sNow rfl)

/-- Claim C8: setFields followed by getFields on the same document identity
(equal derived key) returns the stored list itself, as a total replacement;
getFields on an identity that was never set, or whose entry was removed,
returns the empty list without failing. -/
theorem c8_store_roundtrip :
    (∀ (m : Store) (f f' : JSFile) (fields : List PlacedField),
      getDocumentKey f' = getDocumentKey f →
      getDocumentFields (updateDocumentFields m f fields) f' = fields)
  ∧ (∀ f : JSFile, getDocumentFields ([] : Store) f = [])
  ∧ (∀ (m : Store) (f : JSFile), StoreWF m →
      getDocumentFields (removeDocumentFields m f) f = []) := by
  refine ⟨?_, fun f => rfl, ?_⟩
  · intro m f f' fields hkey
    unfold getDocumentFields updateDocumentFields
    rw [hkey, storeGet_set_self]
    rfl
  · intro m f hwf
    unfold getDocumentFields removeDocumentFields
    rw [storeGet_del_self _ _ hwf]
    rfl

theorem c8_store_roundtrip_witness :
    getDocumentFields (updateDocumentFields [] sampleLoadablePdf
        [sampleNameField]) sampleLoadablePdf = [sampleNameField] ∧
    getDocumentFields (removeDocumentFields [] sampleLoadablePdf)
      sampleLoadablePdf = [] :=
  ⟨c8_store_roundtrip.1 [] sampleLoadablePdf sampleLoadablePdf
      [sampleNameField] rfl,
    c8_store_roundtrip.2.2 [] sampleLoadablePdf List.nodup_nil⟩

theorem handleDownload_sampleTxt :
    handleDownloadDocument (updateDocumentFields [] sampleTxtFile
        [sampleFilledField]) sampleTxtFile true sNow =
      (updateDocumentFields [] sampleTxtFile [sampleFilledField],
        DownloadResult.downloaded
          (generateSignaturePagePDF sampleTxtFile
            (mkSignatureData [sampleFilledField]) true sNow)
          sNotesSignedPdf) := by
  have hfields : getDocumentFields (updateDocumentFields [] sampleTxtFile
      [sampleFilledField]) sampleTxtFile = [sampleFilledField] := by
    unfold getDocumentFields updateDocumentFields
    rw [storeGet_set_self]
    rfl
  simp only [handleDownloadDocument, hfields]
  rfl

/-- Claim C9 as stated is false: the suggested filename always ends in
_signed.pdf whatever the original extension, and the stem is the part of
the original name before its first dot. A successful finalize of notes.txt
is offered as notes_signed.pdf, not notes_signed.txt. -/
theorem c9_filename_counterexample :
    (handleDownloadDocument (updateDocumentFields [] sampleTxtFile
        [sampleFilledField]) sampleTxtFile true sNow).2 =
      DownloadResult.downloaded
        (generateSignaturePagePDF sampleTxtFile
          (mkSignatureData [sampleFilledField]) true sNow)
        sNotesSignedPdf ∧
    sNotesSignedPdf ≠ sNotesSignedTxt := by
  constructor
  · exact congrArg Prod.snd handleDownload_sampleTxt
  · decide

/-- Claim C9 amended: a successful finalize yields a single blob whose
suggested filename is the part of the original filename before its first
dot followed by _signed.pdf — the extension is always pdf and multi-dot
stems are truncated at the first dot. -/
theorem c9_filename_amended (store : Store) (f : JSFile) (b : Bool)
    (nowStr : String) (blob : OutputPDF) (fn : String)
    (h : (handleDownloadDocument store f b nowStr).2 =
      DownloadResult.downloaded blob fn) :
    fn = firstDotSegment f.name ++ sSignedSuffix := by
  unfold handleDownloadDocument at h
  by_cases h0 : (getDocumentFields store f).length = 0
  · simp [h0] at h
  · by_cases h1 : 0 < ((getDocumentFields store f).filter isEmptyValue).length
    · simp [h0, h1] at h
    · cases hgen : generateSignedPDF f (mkSignatureData (getDocumentFields store f))
        (getDocumentFields store f) b nowStr with
      | ok blob' => simp [h0, h1, hgen] at h; exact h.2.symm
      | error e => simp [h0, h1, hgen] at h

theorem c9_filename_amended_witness :
    sNotesSignedPdf = firstDotSegment sampleTxtFile.name ++ sSignedSuffix :=
  c9_filename_amended (updateDocumentFields [] sampleTxtFile
      [sampleFilledField]) sampleTxtFile true sNow
    (generateSignaturePagePDF sampleTxtFile
      (mkSignatureData [sampleFilledField]) true sNow)
    sNotesSignedPdf (congrArg Prod.snd handleDownload_sampleTxt)

/-- Claim C10: both drop-commit paths create the placed field without a
value; every field list reachable through the placement-preview flow
(commits and removals only) consists of value-less fields, so when such a
list is nonempty every field counts as unfilled at finalize time and the
handler's empty-value filter is nonempty. -/
theorem c10_unfilled :
    (∀ (ft : FieldType) (x y : ℚ) (p : Int) (t : Nat),
      (overlayHandleDrop ft x y p t).value = none)
  ∧ (∀ (ft : FieldType) (dx dy : ℚ) (p : Int) (t : Nat),
      (previewHandleDragEnd ft dx dy p t).value = none)
  ∧ (∀ l, PlacementReachable l → ∀ fld ∈ l, fld.value = none)
  ∧ (∀ l, PlacementReachable l → ∀ fld ∈ l, isEmptyValue fld = true)
  ∧ (∀ l, PlacementReachable l → l ≠ [] →
      0 < (l.filter isEmptyValue).length) := by
  have hval : ∀ l, PlacementReachable l → ∀ fld ∈ l, fld.value = none := by
    intro l hreach
    induction hreach with
    | nil => intro fld hfld; simp at hfld
    | dropOverlay l ft x y p t h ih =>
      intro fld hfld
      rw [handleFieldPlaced, List.mem_append] at hfld
      rcases hfld with hfld | hfld
      · exact ih fld hfld
      · rw [List.mem_singleton] at hfld
        rw [hfld]
        rfl
    | dropPreview l ft dx dy p t h ih =>
      intro fld hfld
      rw [handleFieldPlaced, List.mem_append] at hfld
      rcases hfld with hfld | hfld
      · exact ih fld hfld
      · rw [List.mem_singleton] at hfld
        rw [hfld]
        rfl
    | removed l fid h ih =>
      intro fld hfld
      exact ih fld (List.mem_of_mem_filter hfld)
  have hempty : ∀ l, PlacementReachable l → ∀ fld ∈ l, isEmptyValue fld = true := by
    intro l hreach fld hfld
    have := hval l hreach fld hfld
    simp [isEmptyValue, this]
  refine ⟨fun ft x y p t => rfl, fun ft dx dy p t => rfl, hval, hempty, ?_⟩
  intro l hreach hne
  cases l with
  | nil => exact absurd rfl hne
  | cons a l' =>
    exact List.length_pos_of_mem (List.mem_filter.mpr
      ⟨List.mem_cons_self a l', hempty _ hreach a (List.mem_cons_self a l')⟩)

theorem c10_unfilled_witness :
    0 < ((handleFieldPlaced [] (overlayHandleDrop FieldType.name 200 200 1
      0)).filter isEmptyValue).length :=
  c10_unfilled.2.2.2.2 _
    (PlacementReachable.dropOverlay [] FieldType.name 200 200 1 0
      PlacementReachable.nil)
    (by simp [handleFieldPlaced])

end SignEasy
